import Mathlib

/-!
Verification development for the `home-movie-maker` pipeline.

This file gives a shallow embedding of the core of
`src/video_preprocessor.py` (ingestion ledger, format inspection,
normalization prompt, per-clip transcode supervision, sequencing and
concatenation) and proves or refutes the specification's claims about it.

External effects are modelled explicitly: the filesystem walk is a list of
`(root, file)` entries, probe/copy results are supplied as functions, the
transcode engine's stdout is a list of parsed lines, and fallible Python
operations (exceptions) are modelled with `Option`/`Except`.
-/

namespace VideoPreprocessor

/-- Model of a Python `datetime` value as produced by
`get_real_creation_time` (src/video_preprocessor.py:37-61): a timezone-aware
datetime when an embedded `creation_time` tag is present and parseable
(`datetime.fromisoformat(creation_str.replace('Z', '+00:00'))`), and a
timezone-naive one from the filesystem fallback
(`datetime.fromtimestamp(os.path.getctime(file_path))`).  The payload is the
instant in seconds on a common scale. -/
inductive PyDatetime
  | aware (t : Int)
  | naive (t : Int)
deriving DecidableEq, Repr

/-- Whether the datetime is timezone-aware. -/
def PyDatetime.kind : PyDatetime → Bool
  | .aware _ => true
  | .naive _ => false

/-- The underlying instant. -/
def PyDatetime.val : PyDatetime → Int
  | .aware t => t
  | .naive t => t

/-- Python `<` on `datetime` values: comparing a timezone-aware datetime with
a timezone-naive one raises `TypeError`, modelled as `none`. -/
def pyLt : PyDatetime → PyDatetime → Option Bool
  | .aware a, .aware b => some (decide (a < b))
  | .naive a, .naive b => some (decide (a < b))
  | _, _ => none

/-- An element of the list sorted by `create_file_list`: a path paired with
its creation datetime. -/
abbrev Entry := String × PyDatetime

/-- Insert an entry into an already-sorted list using Python's `<` on the
key (the datetime), placing the new element after all existing elements that
do not compare strictly greater.  Propagates `TypeError` (`none`). -/
def insortE (x : Entry) : List Entry → Option (List Entry)
  | [] => some [x]
  | y :: ys =>
    match pyLt x.2 y.2 with
    | none => none
    | some b =>
      if b then some (x :: y :: ys)
      else
        match insortE x ys with
        | none => none
        | some zs => some (y :: zs)

/-- Sorting loop: fold the input left-to-right into a sorted accumulator.
Together with `insortE` this is a stable ascending comparison sort, hence
extensionally the behaviour of Python's stable `list.sort(key=...)` on
inputs whose keys are mutually comparable; on a 2-element incomparable input
it performs exactly the one comparison Python performs and raises. -/
def pySortAux : List Entry → List Entry → Option (List Entry)
  | acc, [] => some acc
  | acc, x :: xs =>
    match insortE x acc with
    | none => none
    | some acc2 => pySortAux acc2 xs

/-- Model of `all_pre.sort(key=lambda x: x[1])`
(src/video_preprocessor.py:283). -/
def pySortByCtime (l : List Entry) : Option (List Entry) :=
  pySortAux [] l

/-- Pure stable insertion (same placement rule as `insortE`), used to reason
about the sort on comparable inputs. -/
def insortP (x : Entry) : List Entry → List Entry
  | [] => [x]
  | y :: ys => if x.2.val < y.2.val then x :: y :: ys else y :: insortP x ys

/-- Pure sorting loop matching `pySortAux`. -/
def sortPAux : List Entry → List Entry → List Entry
  | acc, [] => acc
  | acc, x :: xs => sortPAux (insortP x acc) xs

/-- `Path(p).name`: the component after the last path separator. -/
def baseNameChars : List Char → List Char → List Char
  | cur, [] => cur.reverse
  | cur, c :: cs => if c = '/' then baseNameChars [] cs else baseNameChars (c :: cur) cs

/-- `Path(dest).name` for a slash-separated path string. -/
def baseName (p : String) : String :=
  ⟨baseNameChars [] p.data⟩

/-- `os.path.join(tmp_dir, f"pre_{Path(dest).name}")`
(src/video_preprocessor.py:280). -/
def preFileName (tmp_dir dest : String) : String :=
  tmp_dir ++ "/pre_" ++ baseName dest

/-- The entries of `file_data` whose preprocessed output file exists in
`tmp_dir` (the `os.path.exists(pre_file)` filter of
src/video_preprocessor.py:279-282), paired with their creation datetimes,
in original discovery order. -/
def selectedPre (preExists : String → Bool) (tmp_dir : String)
    (file_data : List Entry) : List Entry :=
  file_data.filterMap (fun e =>
    let pre := preFileName tmp_dir e.1
    if preExists pre then some (pre, e.2) else none)

/-- Model of `create_file_list` (src/video_preprocessor.py:276-290): collect
the existing `pre_` outputs in discovery order, sort them by creation
datetime with Python's stable sort, and return the ordered list of paths
written to the playlist file (`none` models the `TypeError` raised when the
sort compares a timezone-aware datetime with a naive one). -/
def create_file_list (preExists : String → Bool) (tmp_dir : String)
    (file_data : List Entry) : Option (List String) :=
  (pySortByCtime (selectedPre preExists tmp_dir file_data)).map
    (fun l => l.map Prod.fst)

/-- Ascending comparison on entries by their creation datetime instant. -/
def byCtimeLe (a b : Entry) : Prop := a.2.val ≤ b.2.val

/-- Concrete batch mixing one metadata-derived (timezone-aware) timestamp
with one filesystem-fallback (timezone-naive) timestamp. -/
def mixedBatch : List Entry :=
  [("/backup/P/a.mp4", PyDatetime.aware 1738067696),
   ("/backup/P/b.mp4", PyDatetime.naive 1738067000)]

/-- Five clips with strictly increasing capture timestamps, listed in a
scrambled discovery order. -/
def fiveClipBatch : List Entry :=
  [("/b/P/c3.mp4", PyDatetime.aware 300),
   ("/b/P/c1.mp4", PyDatetime.aware 100),
   ("/b/P/c5.mp4", PyDatetime.aware 500),
   ("/b/P/c2.mp4", PyDatetime.aware 200),
   ("/b/P/c4.mp4", PyDatetime.aware 400)]

/-- One file yielded by `os.walk(source_dir)`: the directory `root` it was
found in and its bare `file` name. -/
structure WalkEntry where
  root : String
  file : String
deriving DecidableEq, Repr

/-- `file.lower().endswith(".mp4")` (src/video_preprocessor.py:72). -/
def lowerEndsWithMp4 (file : String) : Bool :=
  List.isSuffixOf ".mp4".data (file.data.map Char.toLower)

/-- `os.path.join` for a relative second component. -/
def joinPath (a b : String) : String := a ++ "/" ++ b

/-- List prefix test on characters. -/
def isPrefixChars : List Char → List Char → Bool
  | [], _ => true
  | _ :: _, [] => false
  | a :: as, b :: bs => a == b && isPrefixChars as bs

/-- `os.path.relpath(root, source_dir)` for roots at or below
`source_dir`. -/
def relpath (root source_dir : String) : String :=
  if root = source_dir then "."
  else if isPrefixChars (source_dir ++ "/").data root.data then
    ⟨root.data.drop (source_dir.length + 1)⟩
  else root

/-- The destination path `os.path.join(dest_dir, file)` with
`dest_dir = os.path.join(backup_subdir, os.path.relpath(root, source_dir))`
(src/video_preprocessor.py:75-77). -/
def destOf (source_dir backup_subdir : String) (e : WalkEntry) : String :=
  joinPath (joinPath backup_subdir (relpath e.root source_dir)) e.file

/-- Model of the scan loop of `copy_files` (src/video_preprocessor.py:63-85).
`processed_files` is the ledger loaded from `.processed_files.txt` at entry
(fixed for the whole scan); `copyOK` says whether `shutil.copy2` succeeds on
a source path — an I/O failure raises, and since the loop body has no
per-file handler the exception propagates out of the function, modelled as
`Except.error src`; `ctimeOf` is `get_real_creation_time`.  On success the
result is the `(file_data, processed_srcs)` pair accumulated in walk order.
Bytes already copied to the destination before a failure are filesystem
state outside this model; the returned data and the ledger write (below)
are what the rest of the pipeline sees. -/
def copy_files (source_dir backup_subdir : String) (processed_files : List String)
    (copyOK : String → Bool) (ctimeOf : String → PyDatetime) :
    List WalkEntry → Except String (List (String × PyDatetime) × List String)
  | [] => .ok ([], [])
  | e :: es =>
    if lowerEndsWithMp4 e.file then
      if joinPath e.root e.file ∈ processed_files then
        copy_files source_dir backup_subdir processed_files copyOK ctimeOf es
      else if copyOK (joinPath e.root e.file) then
        match copy_files source_dir backup_subdir processed_files copyOK ctimeOf es with
        | .ok (fd, ps) =>
          .ok ((destOf source_dir backup_subdir e, ctimeOf (joinPath e.root e.file)) :: fd,
            joinPath e.root e.file :: ps)
        | .error s => .error s
      else .error (joinPath e.root e.file)
    else copy_files source_dir backup_subdir processed_files copyOK ctimeOf es

/-- The persisted ledger after a scan: `copy_files` appends `processed_srcs`
in one batch write after the loop (src/video_preprocessor.py:82-84); if the
scan raised, that write never happens and the ledger is unchanged. -/
def ledgerAfter (processed_files : List String)
    (r : Except String (List (String × PyDatetime) × List String)) : List String :=
  match r with
  | .ok (_, ps) => processed_files ++ ps
  | .error _ => processed_files

/-- The newly recorded source paths of a scan result (none if it raised). -/
def appendedSrcs (r : Except String (List (String × PyDatetime) × List String)) :
    List String :=
  match r with
  | .ok (_, ps) => ps
  | .error _ => []

/-- The scan loop in the failure-free case, as a pure function. -/
def scanPure (source_dir backup_subdir : String) (processed_files : List String)
    (ctimeOf : String → PyDatetime) :
    List WalkEntry → List (String × PyDatetime) × List String
  | [] => ([], [])
  | e :: es =>
    if lowerEndsWithMp4 e.file then
      if joinPath e.root e.file ∈ processed_files then
        scanPure source_dir backup_subdir processed_files ctimeOf es
      else
        ((destOf source_dir backup_subdir e, ctimeOf (joinPath e.root e.file)) ::
            (scanPure source_dir backup_subdir processed_files ctimeOf es).1,
          joinPath e.root e.file ::
            (scanPure source_dir backup_subdir processed_files ctimeOf es).2)
    else scanPure source_dir backup_subdir processed_files ctimeOf es

/-- Walk with two candidate clips; copying the first one raises an I/O
error. -/
def c2Walk : List WalkEntry :=
  [⟨"/src/DCIM", "a.mp4"⟩, ⟨"/src/DCIM", "b.mp4"⟩]

/-- `shutil.copy2` fails exactly on the first clip of `c2Walk`. -/
def c2CopyOK : String → Bool := fun s => s != "/src/DCIM/a.mp4"

/-- The `(width, height, fps, raw_fps)` tuple returned by `get_stream_info`
(src/video_preprocessor.py:107-132); `none` models the probe failing
entirely (unreadable file, malformed response, no video stream). -/
structure StreamInfo where
  width : Int
  height : Int
  fps : ℚ
  raw : String
deriving DecidableEq, Repr

/-- The `unique_specs` set built by `inspect_clips_for_mismatch`
(src/video_preprocessor.py:134-142), represented as a duplicate-free list in
first-seen order: a clip's spec is added only when its probe succeeded
(`if info: unique_specs.add(info)`). -/
def uniqueSpecsOf (probe : String → Option StreamInfo) (paths : List String) :
    List StreamInfo :=
  paths.foldl (fun acc f =>
    match probe f with
    | some info => if info ∈ acc then acc else acc ++ [info]
    | none => acc) []

/-- Model of `inspect_clips_for_mismatch`: the unique-spec set together with
the per-file probe results. -/
def inspect_clips_for_mismatch (probe : String → Option StreamInfo)
    (paths : List String) : List StreamInfo × List (String × Option StreamInfo) :=
  (uniqueSpecsOf probe paths, paths.map (fun f => (f, probe f)))

/-- `target_specs` as carried around by the pipeline:
`(width, height, fps_float, raw_fps_string)`. -/
abbrev TargetSpec := Int × Int × ℚ × String

/-- The `-vf` filter string chosen by `normalize_and_overlay`
(src/video_preprocessor.py:199-212): with a normalization target the clip is
scaled and retimed before the caption overlay; without one the filter is the
caption overlay alone (the probe result is consulted only for `fps_value`).
The textual rendering of the target frame rate abstracts Python's float
formatting; no claim depends on it. -/
def video_filter (target_specs : Option TargetSpec) (_info : Option StreamInfo)
    (drawtext_filter : String) : String :=
  match target_specs with
  | some (tw, th, tfps, _) =>
    "scale=" ++ toString tw ++ ":" ++ toString th ++
      ":force_original_aspect_ratio=decrease,fps=" ++ toString tfps ++ "," ++ drawtext_filter
  | none => drawtext_filter

/-- The `-r` value chosen by `normalize_and_overlay` before the optional
hardware-encoder override (src/video_preprocessor.py:199-212). -/
def fps_value (target_specs : Option TargetSpec) (info : Option StreamInfo) : String :=
  match target_specs with
  | some (_, _, _, raw) => raw
  | none =>
    match info with
    | some i => i.raw
    | none => "30000/1001"

/-- Concrete probe for the C6 witness: every clip reports 1080p30 except
`clip2.mp4`, whose probe fails. -/
def c6Probe : String → Option StreamInfo := fun p =>
  if p = "clip2.mp4" then none else some ⟨1920, 1080, 30, "30/1"⟩

/-- Backslash. -/
def bsChar : Char := Char.ofNat 92

/-- Single quote. -/
def sqChar : Char := Char.ofNat 39

/-- One global single-character replacement pass, as Python's
`str.replace` with a one-character pattern. -/
def replaceAllChar (pat : Char) (rep : List Char) : List Char → List Char
  | [] => []
  | c :: cs => (if c = pat then rep else [c]) ++ replaceAllChar pat rep cs

/-- `escape_drawtext_text` (src/video_preprocessor.py:87-91): replace
backslash, then single quote, then colon — in that source order — each pass
prefixing the character with a backslash. -/
def escape_drawtext_text (s : List Char) : List Char :=
  replaceAllChar ':' [bsChar, ':']
    (replaceAllChar sqChar [bsChar, sqChar]
      (replaceAllChar bsChar [bsChar, bsChar] s))

/-- The per-character expansion the three sequential passes amount to. -/
def escapeCharSpec (c : Char) : List Char :=
  if c = bsChar ∨ c = sqChar ∨ c = ':' then [bsChar, c] else [c]

/-- A line read from the transcode engine's stdout, as classified by the
progress loop of `normalize_and_overlay` (src/video_preprocessor.py:235-252):
a hit of `re.match` on the out-time pattern carrying the microsecond value,
the terminal `progress=end` marker, or anything else. -/
inductive EngineLine
  | outTime (us : Nat)
  | progressEnd
  | other
deriving DecidableEq, Repr

/-- `total_duration` after the guard of src/video_preprocessor.py:179-181:
the probed duration, replaced by `1.0` when unavailable or non-positive. -/
def totalDurationOf : Option ℚ → ℚ
  | none => 1
  | some d => if d ≤ 0 then 1 else d

/-- The values the progress loop writes to this job's `progress_dict` entry
while reading engine output: `min(out_time_us / 1e6, total_duration)` per
out-time line, and `total_duration` at the `progress=end` marker, after
which the loop breaks. -/
def loopWrites (total : ℚ) : List EngineLine → List ℚ
  | [] => []
  | .outTime us :: rest => min ((us : ℚ) / 1000000) total :: loopWrites total rest
  | .progressEnd :: _ => [total]
  | .other :: rest => loopWrites total rest

/-- Every value `normalize_and_overlay` ever writes to its own
`progress_dict` entry, in order: the initial `0.0` (line 184), the loop's
writes over the prefix of engine output it got to see (an exception after
`k` lines cuts the loop short; the engine's exit status adds no writes),
and the unconditional `finally` write of `total_duration` (line 259). -/
def progressWrites (dur : Option ℚ) (lines : List EngineLine)
    (interruptAt : Option Nat) : List ℚ :=
  0 :: (loopWrites (totalDurationOf dur)
      (match interruptAt with
        | some k => lines.take k
        | none => lines) ++ [totalDurationOf dur])

/-- Value of a digit run, most significant first. -/
def digitsVal (cs : List Char) : Nat :=
  cs.foldl (fun a c => a * 10 + (c.toNat - 48)) 0

/-- Nonempty all-digit run. -/
def isDigitRun (cs : List Char) : Bool :=
  !cs.isEmpty && cs.all Char.isDigit

/-- Split a character list on a separator, Python `str.split(sep)` style. -/
def splitChar (sep : Char) : List Char → List (List Char)
  | [] => [[]]
  | c :: cs =>
    match splitChar sep cs with
    | [] => [[c]]
    | g :: gs => if c == sep then [] :: g :: gs else (c :: g) :: gs

/-- Python `int(s)` on an optionally signed digit literal (whitespace and
underscore forms do not occur in these claims). -/
def pyIntParse (s : String) : Option Int :=
  match s.data with
  | '-' :: rest => if isDigitRun rest then some (-(digitsVal rest : Int)) else none
  | '+' :: rest => if isDigitRun rest then some ((digitsVal rest : Int)) else none
  | cs => if isDigitRun cs then some ((digitsVal cs : Int)) else none

/-- Magnitude of a Python float literal: digits with an optional decimal
point, at least one digit overall (exponent/inf/nan forms do not occur in
these claims). -/
def pyFloatMag (cs : List Char) : Option ℚ :=
  match splitChar '.' cs with
  | [a] => if isDigitRun a then some ((digitsVal a : ℚ)) else none
  | [a, b] =>
    if (a.all Char.isDigit && b.all Char.isDigit) && !(a.isEmpty && b.isEmpty) then
      some ((digitsVal a : ℚ) + (digitsVal b : ℚ) / (10 : ℚ) ^ b.length)
    else none
  | _ => none

/-- Python `float(s)` on a decimal literal. -/
def pyFloatParseChars : List Char → Option ℚ
  | '-' :: rest => (pyFloatMag rest).map (fun q => -q)
  | '+' :: rest => pyFloatMag rest
  | cs => pyFloatMag cs

/-- The frame-rate parse of the custom branch of `prompt_for_normalization`
(src/video_preprocessor.py:163-167): a string containing a slash must split
into exactly two float literals (the tuple unpacking of `split('/')` raises
otherwise) with a non-zero denominator (`ZeroDivisionError` otherwise);
anything else is parsed as one float. -/
def parseFpsCustom (tfps : String) : Option ℚ :=
  if tfps.data.contains '/' then
    match splitChar '/' tfps.data with
    | [num, den] =>
      match pyFloatParseChars num, pyFloatParseChars den with
      | some n, some d => if d = 0 then none else some (n / d)
      | _, _ => none
    | _ => none
  else pyFloatParseChars tfps.data

/-- The custom-target branch of `prompt_for_normalization`
(src/video_preprocessor.py:156-171), applied to the three raw strings the
caller typed: on any parse failure the fixed fallback `1920x1080 @ 29.97`
with raw rate `30000/1001` is returned and the fallback notice is printed
(the boolean).  The fallback float `29.97` is represented exactly as
`2997/100`. -/
def prompt_for_normalization_custom (tw th tfps : String) : TargetSpec × Bool :=
  match pyIntParse tw, pyIntParse th, parseFpsCustom tfps with
  | some w, some h, some f => ((w, h, f, tfps), false)
  | _, _, _ => ((1920, 1080, 2997 / 100, "30000/1001"), true)

/-- The command `concatenate_videos` runs (src/video_preprocessor.py:292-298):
a container-level stream-copy join (`-c copy`), unconditionally. -/
def concatenate_videos_command (file_list_path output_file : String) : List String :=
  ["ffmpeg", "-f", "concat", "-safe", "0", "-i", file_list_path, "-c", "copy", output_file]

/-- The concatenation step of `main` (src/video_preprocessor.py:394-399):
the observed unique specs and the normalization decision are not consulted —
`concatenate_videos` is always invoked, with the log line "assuming uniform
specs now". -/
def main_concat_command (_unique_specs : List StreamInfo) (_target_spec : Option TargetSpec)
    (file_list_path output_file : String) : List String :=
  concatenate_videos_command file_list_path output_file

/-- A join command performs the fast container-level join iff it passes
`-c copy` to the engine. -/
def usesStreamCopy (cmd : List String) : Prop :=
  ["-c", "copy"] <:+: cmd

/-- The two distinct specs of the spec's own mismatched example. -/
def mismatchedSpecs : List StreamInfo :=
  [⟨1920, 1080, 30, "30/1"⟩, ⟨1280, 720, 30, "30/1"⟩]

/-- What `main` can observe of one submitted transcode future
(src/video_preprocessor.py:373-387): the wall-clock second at which the
worker function returns (`none` when the engine neither exits nor emits the
completion marker, leaving the worker blocked in `readline` forever), the
value `normalize_and_overlay` returns, the job's `progress_dict` value as
last written before the batch timeout, and the clip's total duration. -/
structure FutureView where
  finishTime : Option ℚ
  result : Option String
  lastProgress : ℚ
  totalDuration : ℚ

/-- The batch-wide wall-clock timeout passed to `as_completed`
(src/video_preprocessor.py:378). -/
def batchTimeoutSeconds : ℚ := 3600

/-- Whether `as_completed` yields this future before the batch timeout. -/
def finishedWithinTimeout (f : FutureView) : Bool :=
  match f.finishTime with
  | some t => decide (t ≤ batchTimeoutSeconds)
  | none => false

/-- The `results` list `main` collects: exactly the futures yielded by
`as_completed` before the timeout — the `except TimeoutError` handler stops
collecting.  (Completion order is irrelevant to the claims about it.) -/
def batchResults (futures : List FutureView) : List (Option String) :=
  (futures.filter finishedWithinTimeout).map FutureView.result

/-- The processes terminated by the `except TimeoutError` handler
(src/video_preprocessor.py:383-384): the handler only prints a warning, so
none. -/
def jobsKilledAtBatchTimeout (_futures : List FutureView) : List FutureView := []

/-- Job states of the pipeline's per-job state machine. -/
inductive JobStatus
  | queued
  | running
  | succeeded
  | failed
deriving DecidableEq, Repr

/-- The job's state as of the batch-timeout instant: a worker that returned
in time resolved to `Succeeded`/`Failed` according to its result; a worker
that has not returned is still `Running` — nothing in `main`'s timeout
handling transitions it. -/
def statusAtBatchTimeout (f : FutureView) : JobStatus :=
  match f.finishTime with
  | some t =>
    if t ≤ batchTimeoutSeconds then
      if f.result.isSome then .succeeded else .failed
    else .running
  | none => .running

/-- The job's `progress_dict` entry as of the batch-timeout instant: the
`finally` block of `normalize_and_overlay` sets it to `total_duration` only
when the worker function actually returns; a worker blocked forever never
reaches its `finally`. -/
def progressAtBatchTimeout (f : FutureView) : ℚ :=
  match f.finishTime with
  | some t => if t ≤ batchTimeoutSeconds then f.totalDuration else f.lastProgress
  | none => f.lastProgress

/-- A job whose engine produced progress up to second 42 and then hung
without exiting or emitting `progress=end`. -/
def stalledJob : FutureView :=
  { finishTime := none, result := none, lastProgress := 42, totalDuration := 600 }

/-- C7: For every batch mixing clips whose captureTimestamp came from
embedded container metadata with clips whose captureTimestamp came from the
filesystem fallback, the Sequencer's sort is claimed to still complete and
order all clips together.  In the code this is false: `get_real_creation_time`
returns a timezone-aware datetime from metadata but a timezone-naive one from
the filesystem fallback, and Python's sort raises `TypeError` when comparing
them, so `create_file_list` crashes on such a batch instead of producing a
playlist. -/
theorem mixed_timestamp_sort_raises :
    create_file_list (fun _ => true) "/backup/P/tmp" mixedBatch = none := by
  rfl

theorem pyLt_of_kind_eq (a b : PyDatetime) (h : a.kind = b.kind) :
    pyLt a b = some (decide (a.val < b.val)) := by
  cases a <;> cases b <;> simp_all [pyLt, PyDatetime.kind, PyDatetime.val]

theorem mem_insortP {z x : Entry} {l : List Entry} (h : z ∈ insortP x l) :
    z = x ∨ z ∈ l := by
  induction l with
  | nil =>
    simp only [insortP, List.mem_singleton] at h
    exact Or.inl h
  | cons y ys ih =>
    simp only [insortP] at h
    split at h
    · rcases List.mem_cons.mp h with h | h
      · exact Or.inl h
      · exact Or.inr h
    · rcases List.mem_cons.mp h with h | h
      · exact Or.inr (h ▸ List.mem_cons_self _ _)
      · rcases ih h with h | h
        · exact Or.inl h
        · exact Or.inr (List.mem_cons_of_mem _ h)

theorem insortE_eq_insortP (x : Entry) (b : Bool) (hx : x.2.kind = b) :
    ∀ l : List Entry, (∀ y ∈ l, y.2.kind = b) → insortE x l = some (insortP x l) := by
  intro l
  induction l with
  | nil => intro _; rfl
  | cons y ys ih =>
    intro hl
    have hk : x.2.kind = y.2.kind := by
      rw [hx, hl y (List.mem_cons_self _ _)]
    by_cases hv : x.2.val < y.2.val
    · simp [insortE, pyLt_of_kind_eq x.2 y.2 hk, hv, insortP]
    · simp [insortE, pyLt_of_kind_eq x.2 y.2 hk, hv, insortP,
        ih (fun z hz => hl z (List.mem_cons_of_mem _ hz))]

theorem pySortAux_eq_sortPAux (b : Bool) :
    ∀ (l acc : List Entry), (∀ y ∈ l, y.2.kind = b) → (∀ y ∈ acc, y.2.kind = b) →
      pySortAux acc l = some (sortPAux acc l) := by
  intro l
  induction l with
  | nil => intro acc _ _; rfl
  | cons x xs ih =>
    intro acc hl hacc
    have hx : x.2.kind = b := hl x (List.mem_cons_self _ _)
    have hacc2 : ∀ y ∈ insortP x acc, y.2.kind = b := by
      intro y hy
      rcases mem_insortP hy with h | h
      · exact h ▸ hx
      · exact hacc y h
    simp only [pySortAux, insortE_eq_insortP x b hx acc hacc, sortPAux]
    exact ih (insortP x acc) (fun z hz => hl z (List.mem_cons_of_mem _ hz)) hacc2

theorem insortP_perm (x : Entry) : ∀ l : List Entry, (insortP x l).Perm (x :: l) := by
  intro l
  induction l with
  | nil => exact List.Perm.refl _
  | cons y ys ih =>
    simp only [insortP]
    split
    · exact List.Perm.refl _
    · exact (ih.cons y).trans (List.Perm.swap x y ys)

theorem sortPAux_perm : ∀ (l acc : List Entry), (sortPAux acc l).Perm (acc ++ l) := by
  intro l
  induction l with
  | nil => intro acc; simp [sortPAux]
  | cons x xs ih =>
    intro acc
    show (sortPAux (insortP x acc) xs).Perm (acc ++ x :: xs)
    exact ((ih (insortP x acc)).trans
      ((insortP_perm x acc).append_right xs)).trans List.perm_middle.symm

theorem insortP_pairwise (x : Entry) :
    ∀ l : List Entry, l.Pairwise byCtimeLe → (insortP x l).Pairwise byCtimeLe := by
  intro l
  induction l with
  | nil => intro _; simp [insortP, byCtimeLe]
  | cons y ys ih =>
    intro h
    rcases List.pairwise_cons.mp h with ⟨h1, h2⟩
    simp only [insortP]
    split
    · rename_i hv
      refine List.pairwise_cons.mpr ⟨?_, h⟩
      intro z hz
      rcases List.mem_cons.mp hz with hz | hz
      · exact hz ▸ le_of_lt hv
      · exact (le_of_lt hv).trans (h1 z hz)
    · rename_i hv
      refine List.pairwise_cons.mpr ⟨?_, ih h2⟩
      intro z hz
      rcases mem_insortP hz with hz | hz
      · exact hz ▸ le_of_not_lt hv
      · exact h1 z hz

theorem sortPAux_pairwise :
    ∀ (l acc : List Entry), acc.Pairwise byCtimeLe → (sortPAux acc l).Pairwise byCtimeLe := by
  intro l
  induction l with
  | nil => intro acc h; exact h
  | cons x xs ih => intro acc h; exact ih (insortP x acc) (insortP_pairwise x acc h)

theorem insortP_filter (k : Int) (x : Entry) :
    ∀ l : List Entry, l.Pairwise byCtimeLe →
      (insortP x l).filter (fun e => decide (e.2.val = k)) =
        l.filter (fun e => decide (e.2.val = k)) ++
          (if x.2.val = k then [x] else []) := by
  intro l
  induction l with
  | nil =>
    intro _
    by_cases hx : x.2.val = k <;> simp [insortP, hx]
  | cons y ys ih =>
    intro h
    rcases List.pairwise_cons.mp h with ⟨h1, h2⟩
    simp only [insortP]
    split
    · rename_i hv
      by_cases hx : x.2.val = k
      · have hnil : (y :: ys).filter (fun e => decide (e.2.val = k)) = [] := by
          rw [List.filter_eq_nil_iff]
          intro z hz
          have hlt : x.2.val < z.2.val := by
            rcases List.mem_cons.mp hz with hz | hz
            · exact hz ▸ hv
            · exact hv.trans_le (h1 z hz)
          simp only [decide_eq_true_eq]
          omega
        rw [hnil]
        simp [List.filter_cons, hx, hnil]
      · simp [List.filter_cons, hx]
    · rename_i hv
      by_cases hy : y.2.val = k <;>
        simp [List.filter_cons, hy, ih h2]

theorem sortPAux_filter (k : Int) :
    ∀ (l acc : List Entry), acc.Pairwise byCtimeLe →
      (sortPAux acc l).filter (fun e => decide (e.2.val = k)) =
        acc.filter (fun e => decide (e.2.val = k)) ++
          l.filter (fun e => decide (e.2.val = k)) := by
  intro l
  induction l with
  | nil => intro acc _; simp [sortPAux]
  | cons x xs ih =>
    intro acc hacc
    have : sortPAux acc (x :: xs) = sortPAux (insortP x acc) xs := rfl
    rw [this, ih (insortP x acc) (insortP_pairwise x acc hacc),
      insortP_filter k x acc hacc]
    by_cases hx : x.2.val = k <;> simp [List.filter_cons, hx]

theorem mem_selectedPre {z : Entry} {preExists : String → Bool} {tmp_dir : String}
    {file_data : List Entry} (h : z ∈ selectedPre preExists tmp_dir file_data) :
    ∃ e ∈ file_data, z = (preFileName tmp_dir e.1, e.2) := by
  rcases List.mem_filterMap.mp h with ⟨e, he, hfe⟩
  refine ⟨e, he, ?_⟩
  by_cases hp : preExists (preFileName tmp_dir e.1) = true
  · simp only [hp, if_pos] at hfe
    exact (Option.some_inj.mp hfe).symm
  · simp [hp] at hfe

/-- C4: `create_file_list` emits exactly the output paths of the jobs whose
preprocessed file exists (the code's proxy for `Succeeded`), stable-sorted
ascending by each clip's creation datetime: the produced playlist is the
path projection of a list `L` that is sorted by timestamp, is a permutation
of the selected entries, and — for every timestamp value — lists tied
entries in their original discovery order.  The hypothesis restricts the
batch to timestamps of one kind (all metadata-derived or all
filesystem-derived), which is when Python's sort is defined (see
`mixed_timestamp_sort_raises` for the mixed case).  Completion order is not
an input of `create_file_list` at all, so the playlist is independent of
it. -/
theorem create_file_list_sorted_stable (preExists : String → Bool) (tmp_dir : String)
    (file_data : List Entry) (b : Bool) (hk : ∀ e ∈ file_data, e.2.kind = b) :
    ∃ L : List Entry,
      create_file_list preExists tmp_dir file_data = some (L.map Prod.fst) ∧
      L.Pairwise byCtimeLe ∧
      L.Perm (selectedPre preExists tmp_dir file_data) ∧
      ∀ k : Int,
        L.filter (fun e => decide (e.2.val = k)) =
          (selectedPre preExists tmp_dir file_data).filter
            (fun e => decide (e.2.val = k)) := by
  have hS : ∀ y ∈ selectedPre preExists tmp_dir file_data, y.2.kind = b := by
    intro y hy
    rcases mem_selectedPre hy with ⟨e, he, hye⟩
    rw [hye]
    exact hk e he
  refine ⟨sortPAux [] (selectedPre preExists tmp_dir file_data), ?_, ?_, ?_, ?_⟩
  · unfold create_file_list pySortByCtime
    rw [pySortAux_eq_sortPAux b (selectedPre preExists tmp_dir file_data) [] hS
      (by intro y hy; cases hy)]
    rfl
  · exact sortPAux_pairwise _ [] List.Pairwise.nil
  · simpa using sortPAux_perm (selectedPre preExists tmp_dir file_data) []
  · intro k
    simpa using sortPAux_filter k (selectedPre preExists tmp_dir file_data) []
      List.Pairwise.nil

/-- Witness for C4 at a concrete five-clip batch with scrambled discovery
order: the hypothesis holds, the theorem applies, and the playlist comes out
in `t1..t5` order. -/
theorem create_file_list_sorted_stable_witness :
    (∀ e ∈ fiveClipBatch, e.2.kind = true) ∧
    (∃ L : List Entry,
      create_file_list (fun _ => true) "/b/P/tmp" fiveClipBatch = some (L.map Prod.fst) ∧
      L.Pairwise byCtimeLe ∧
      L.Perm (selectedPre (fun _ => true) "/b/P/tmp" fiveClipBatch) ∧
      ∀ k : Int,
        L.filter (fun e => decide (e.2.val = k)) =
          (selectedPre (fun _ => true) "/b/P/tmp" fiveClipBatch).filter
            (fun e => decide (e.2.val = k))) ∧
    create_file_list (fun _ => true) "/b/P/tmp" fiveClipBatch =
      some ["/b/P/tmp/pre_c1.mp4", "/b/P/tmp/pre_c2.mp4", "/b/P/tmp/pre_c3.mp4",
        "/b/P/tmp/pre_c4.mp4", "/b/P/tmp/pre_c5.mp4"] :=
  ⟨by decide,
    create_file_list_sorted_stable (fun _ => true) "/b/P/tmp" fiveClipBatch true (by decide),
    by rfl⟩

theorem copy_files_ok (sd bd : String) (L : List String) (ct : String → PyDatetime) :
    ∀ walk : List WalkEntry,
      copy_files sd bd L (fun _ => true) ct walk = .ok (scanPure sd bd L ct walk) := by
  intro walk
  induction walk with
  | nil => rfl
  | cons e es ih =>
    by_cases hm : lowerEndsWithMp4 e.file = true
    · by_cases hin : joinPath e.root e.file ∈ L
      · simp [copy_files, scanPure, hm, hin, ih]
      · simp [copy_files, scanPure, hm, hin, ih]
    · simp [copy_files, scanPure, hm, ih]

theorem scanPure_covers (sd bd : String) (L : List String) (ct : String → PyDatetime) :
    ∀ walk : List WalkEntry, ∀ e ∈ walk, lowerEndsWithMp4 e.file = true →
      joinPath e.root e.file ∈ L ∨ joinPath e.root e.file ∈ (scanPure sd bd L ct walk).2 := by
  intro walk
  induction walk with
  | nil => intro e he; cases he
  | cons e es ih =>
    intro z hz hzm
    by_cases hm : lowerEndsWithMp4 e.file = true
    · by_cases hin : joinPath e.root e.file ∈ L
      · rcases List.mem_cons.mp hz with rfl | hz'
        · exact Or.inl hin
        · simpa [scanPure, hm, hin] using ih z hz' hzm
      · rcases List.mem_cons.mp hz with rfl | hz'
        · right
          simp [scanPure, hm, hin]
        · rcases ih z hz' hzm with h | h
          · exact Or.inl h
          · right
            simp [scanPure, hm, hin, h]
    · rcases List.mem_cons.mp hz with rfl | hz'
      · exact absurd hzm hm
      · simpa [scanPure, hm] using ih z hz' hzm

theorem copy_files_all_processed (sd bd : String) (L : List String)
    (ct : String → PyDatetime) :
    ∀ walk : List WalkEntry,
      (∀ e ∈ walk, lowerEndsWithMp4 e.file = true → joinPath e.root e.file ∈ L) →
      copy_files sd bd L (fun _ => true) ct walk = .ok ([], []) := by
  intro walk
  induction walk with
  | nil => intro _; rfl
  | cons e es ih =>
    intro h
    have htail : ∀ z ∈ es, lowerEndsWithMp4 z.file = true → joinPath z.root z.file ∈ L :=
      fun z hz => h z (List.mem_cons_of_mem _ hz)
    by_cases hm : lowerEndsWithMp4 e.file = true
    · have hin : joinPath e.root e.file ∈ L := h e (List.mem_cons_self _ _) hm
      simp [copy_files, hm, hin, ih htail]
    · simp [copy_files, hm, ih htail]

/-- C5: Running the scan a second time over an unchanged source yields zero
new `IngestedClip`s: every source path appended to the persisted ledger on
the first run is read back into the ledger set at the start of the second
run and skipped unconditionally, so the second run returns empty
`file_data` and appends nothing.  The scan never consults destination
state, so this holds regardless of it. -/
theorem second_scan_yields_no_new_clips (sd bd : String) (ledger : List String)
    (ctimeOf : String → PyDatetime) (walk : List WalkEntry) :
    copy_files sd bd
      (ledger ++ appendedSrcs (copy_files sd bd ledger (fun _ => true) ctimeOf walk))
      (fun _ => true) ctimeOf walk = .ok ([], []) := by
  rw [copy_files_ok sd bd ledger ctimeOf walk]
  show copy_files sd bd (ledger ++ (scanPure sd bd ledger ctimeOf walk).2)
      (fun _ => true) ctimeOf walk = .ok ([], [])
  apply copy_files_all_processed
  intro e he hm
  rcases scanPure_covers sd bd ledger ctimeOf walk e he hm with h | h
  · exact List.mem_append_left _ h
  · exact List.mem_append_right _ h

/-- C2 counterexample: with two candidate clips and an I/O failure on the
first copy, the scan raises instead of continuing: the second clip is
neither copied into `file_data` nor recorded, and nothing at all is
appended to the ledger — contradicting the claim that only the failing file
is skipped while every remaining candidate is still copied and recorded. -/
theorem copy_failure_aborts_scan_cex :
    copy_files "/src" "/backup/P" [] c2CopyOK (fun _ => PyDatetime.naive 0) c2Walk =
      .error "/src/DCIM/a.mp4" ∧
    appendedSrcs
      (copy_files "/src" "/backup/P" [] c2CopyOK (fun _ => PyDatetime.naive 0) c2Walk) = [] ∧
    ledgerAfter []
      (copy_files "/src" "/backup/P" [] c2CopyOK (fun _ => PyDatetime.naive 0) c2Walk) = [] :=
  ⟨rfl, rfl, rfl⟩

/-- C2 as amended: a per-file copy failure propagates out of `copy_files`,
aborting the scan; the function returns no file data and the batch ledger
write never happens, so the failing file — and every other file of the scan
— remains absent from the persisted ledger and is retried on the next
scan. -/
theorem copy_failure_raises_aux (sd bd : String) (L : List String)
    (copyOK : String → Bool) (ct : String → PyDatetime) :
    ∀ walk : List WalkEntry,
      (∃ e ∈ walk, lowerEndsWithMp4 e.file = true ∧ joinPath e.root e.file ∉ L ∧
        copyOK (joinPath e.root e.file) = false) →
      ∃ s, copy_files sd bd L copyOK ct walk = .error s := by
  intro walk
  induction walk with
  | nil => rintro ⟨e, he, -⟩; cases he
  | cons e es ih =>
    rintro ⟨z, hz, hzm, hzL, hzc⟩
    by_cases hm : lowerEndsWithMp4 e.file = true
    · by_cases hin : joinPath e.root e.file ∈ L
      · have hz' : z ∈ es := by
          rcases List.mem_cons.mp hz with rfl | hz'
          · exact absurd hin hzL
          · exact hz'
        rcases ih ⟨z, hz', hzm, hzL, hzc⟩ with ⟨s, hs⟩
        exact ⟨s, by simp [copy_files, hm, hin, hs]⟩
      · by_cases hc : copyOK (joinPath e.root e.file) = true
        · have hz' : z ∈ es := by
            rcases List.mem_cons.mp hz with rfl | hz'
            · simp [hc] at hzc
            · exact hz'
          rcases ih ⟨z, hz', hzm, hzL, hzc⟩ with ⟨s, hs⟩
          exact ⟨s, by simp [copy_files, hm, hin, hc, hs]⟩
        · exact ⟨joinPath e.root e.file, by simp [copy_files, hm, hin, hc]⟩
    · have hz' : z ∈ es := by
        rcases List.mem_cons.mp hz with rfl | hz'
        · exact absurd hzm hm
        · exact hz'
      rcases ih ⟨z, hz', hzm, hzL, hzc⟩ with ⟨s, hs⟩
      exact ⟨s, by simp [copy_files, hm, hs]⟩

/-- C2 as amended: a per-file copy failure propagates out of `copy_files`,
aborting the scan; the function returns no file data and the batch ledger
write never happens, so the failing file — and every other file of the scan
— remains absent from the persisted ledger and is retried on the next
scan. -/
theorem copy_failure_aborts_scan (sd bd : String) (L : List String)
    (copyOK : String → Bool) (ct : String → PyDatetime) (walk : List WalkEntry)
    (h : ∃ e ∈ walk, lowerEndsWithMp4 e.file = true ∧ joinPath e.root e.file ∉ L ∧
      copyOK (joinPath e.root e.file) = false) :
    (∃ s, copy_files sd bd L copyOK ct walk = .error s) ∧
    ledgerAfter L (copy_files sd bd L copyOK ct walk) = L := by
  rcases copy_failure_raises_aux sd bd L copyOK ct walk h with ⟨s, hs⟩
  exact ⟨⟨s, hs⟩, by rw [hs]; rfl⟩

/-- Witness for C2's amended claim at the concrete two-clip batch. -/
theorem copy_failure_aborts_scan_witness :
    (∃ e ∈ c2Walk, lowerEndsWithMp4 e.file = true ∧
      joinPath e.root e.file ∉ ([] : List String) ∧
      c2CopyOK (joinPath e.root e.file) = false) ∧
    ((∃ s, copy_files "/src" "/backup/P" [] c2CopyOK (fun _ => PyDatetime.naive 0) c2Walk =
        .error s) ∧
      ledgerAfter []
        (copy_files "/src" "/backup/P" [] c2CopyOK (fun _ => PyDatetime.naive 0) c2Walk) = []) :=
  ⟨by decide,
    copy_failure_aborts_scan "/src" "/backup/P" [] c2CopyOK (fun _ => PyDatetime.naive 0)
      c2Walk (by decide)⟩

/-- C6: a clip whose probe fails is excluded from the unique-spec set used
for mismatch detection — removing it from the batch leaves the set
unchanged — and with no normalization target set the transcode video filter
is the caption overlay alone: no scale and no frame-rate filter. -/
theorem unknown_probe_excluded_and_passthrough
    (probe : String → Option StreamInfo) (f : String) (ps1 ps2 : List String)
    (hf : probe f = none) :
    (inspect_clips_for_mismatch probe (ps1 ++ f :: ps2)).1 =
      (inspect_clips_for_mismatch probe (ps1 ++ ps2)).1 ∧
    ∀ (info : Option StreamInfo) (dt : String), video_filter none info dt = dt := by
  constructor
  · show uniqueSpecsOf probe (ps1 ++ f :: ps2) = uniqueSpecsOf probe (ps1 ++ ps2)
    unfold uniqueSpecsOf
    rw [List.foldl_append, List.foldl_append, List.foldl_cons]
    simp [hf]
  · intro _ _
    rfl

/-- Witness for C6 at a concrete three-clip batch whose middle clip has a
failing probe. -/
theorem unknown_probe_excluded_and_passthrough_witness :
    c6Probe "clip2.mp4" = none ∧
    ((inspect_clips_for_mismatch c6Probe (["clip1.mp4"] ++ "clip2.mp4" :: ["clip3.mp4"])).1 =
        (inspect_clips_for_mismatch c6Probe (["clip1.mp4"] ++ ["clip3.mp4"])).1 ∧
      ∀ (info : Option StreamInfo) (dt : String), video_filter none info dt = dt) :=
  ⟨by decide,
    unknown_probe_excluded_and_passthrough c6Probe "clip2.mp4" ["clip1.mp4"] ["clip3.mp4"]
      (by decide)⟩

theorem replaceAllChar_append (pat : Char) (rep : List Char) :
    ∀ l1 l2 : List Char,
      replaceAllChar pat rep (l1 ++ l2) =
        replaceAllChar pat rep l1 ++ replaceAllChar pat rep l2 := by
  intro l1 l2
  induction l1 with
  | nil => rfl
  | cons c cs ih => simp [replaceAllChar, ih]

/-- C9: the escaping function is exactly the per-character map that prefixes
backslash, single-quote and colon — and only those three — with a
backslash: running the backslash pass first means the later single-quote and
colon passes see no characters they could double-escape, so the three
sequential global replacements collapse to this single pass. -/
theorem escape_drawtext_text_charwise :
    ∀ s : List Char, escape_drawtext_text s = (s.map escapeCharSpec).flatten := by
  intro s
  induction s with
  | nil => rfl
  | cons c cs ih =>
    have hstep : escape_drawtext_text (c :: cs) =
        replaceAllChar ':' [bsChar, ':']
          (replaceAllChar sqChar [bsChar, sqChar]
            (if c = bsChar then [bsChar, bsChar] else [c])) ++ escape_drawtext_text cs := by
      simp only [escape_drawtext_text, replaceAllChar, replaceAllChar_append]
    have hhead : replaceAllChar ':' [bsChar, ':']
        (replaceAllChar sqChar [bsChar, sqChar]
          (if c = bsChar then [bsChar, bsChar] else [c])) = escapeCharSpec c := by
      by_cases h1 : c = bsChar
      · subst h1; decide
      · by_cases h2 : c = sqChar
        · subst h2; decide
        · by_cases h3 : c = ':'
          · subst h3; decide
          · simp [replaceAllChar, escapeCharSpec, h1, h2, h3]
    rw [hstep, hhead, ih]
    simp [escapeCharSpec]

theorem totalDurationOf_pos (dur : Option ℚ) : 0 < totalDurationOf dur := by
  cases dur with
  | none => exact one_pos
  | some d =>
    simp only [totalDurationOf]
    split
    · exact one_pos
    · rename_i h
      exact lt_of_not_le h

theorem loopWrites_mem_bounds (total : ℚ) (htotal : 0 ≤ total) :
    ∀ lines : List EngineLine, ∀ v ∈ loopWrites total lines, 0 ≤ v ∧ v ≤ total := by
  intro lines
  induction lines with
  | nil => intro v hv; cases hv
  | cons l rest ih =>
    intro v hv
    cases l with
    | outTime us =>
      simp only [loopWrites] at hv
      rcases List.mem_cons.mp hv with rfl | hv'
      · refine ⟨le_min ?_ htotal, min_le_right _ _⟩
        positivity
      · exact ih v hv'
    | progressEnd =>
      simp only [loopWrites] at hv
      rcases List.mem_cons.mp hv with rfl | hv'
      · exact ⟨htotal, le_refl _⟩
      · cases hv'
    | other =>
      simp only [loopWrites] at hv
      exact ih v hv

/-- C10: whenever `normalize_and_overlay` returns — engine success, non-zero
exit, or an exception cutting the loop short after any number of lines —
the last value written to the job's `progress_dict` entry is exactly
`total_duration` (the `finally` write), and every value ever written there
lies within `[0, total_duration]`. -/
theorem progress_writes_clamped_and_final (dur : Option ℚ) (lines : List EngineLine)
    (interruptAt : Option Nat) :
    (progressWrites dur lines interruptAt).getLast? = some (totalDurationOf dur) ∧
    ∀ v ∈ progressWrites dur lines interruptAt, 0 ≤ v ∧ v ≤ totalDurationOf dur := by
  constructor
  · simp only [progressWrites]
    rw [← List.cons_append]
    exact List.getLast?_concat _
  · intro v hv
    have htotal : 0 < totalDurationOf dur := totalDurationOf_pos dur
    simp only [progressWrites] at hv
    rcases List.mem_cons.mp hv with rfl | hv'
    · exact ⟨le_refl 0, le_of_lt htotal⟩
    · rcases List.mem_append.mp hv' with h | h
      · exact loopWrites_mem_bounds _ (le_of_lt htotal) _ v h
      · rw [List.mem_singleton.mp h]
        exact ⟨le_of_lt htotal, le_refl _⟩

/-- C8 counterexample: a custom width of `-1920` parses via Python `int()`
and is accepted as-is — `prompt_for_normalization` has no positivity check —
so this invalid custom input does not fall back to the default target and no
fallback notice is printed. -/
theorem nonpositive_custom_dimensions_accepted_cex :
    prompt_for_normalization_custom "-1920" "1080" "30" =
      (((-1920 : Int), (1080 : Int), (30 : ℚ), "30"), false) ∧
    ¬(0 < (-1920 : Int)) :=
  ⟨by decide, by decide⟩

/-- C8 as amended: the custom input is accepted whenever width and height
parse as Python integers — of any sign — and the frame rate parses as a
decimal or a well-formed rational with non-zero denominator; exactly the
parse failures produce the fixed default target `1920x1080 @ 30000/1001`
together with the fallback notice. -/
theorem custom_normalization_parse_behavior (tw th tfps : String) :
    (∀ (w h : Int) (f : ℚ), pyIntParse tw = some w → pyIntParse th = some h →
      parseFpsCustom tfps = some f →
      prompt_for_normalization_custom tw th tfps = ((w, h, f, tfps), false)) ∧
    ((pyIntParse tw = none ∨ pyIntParse th = none ∨ parseFpsCustom tfps = none) →
      prompt_for_normalization_custom tw th tfps =
        ((1920, 1080, 2997 / 100, "30000/1001"), true)) := by
  constructor
  · intro w h f hw hh hf
    simp [prompt_for_normalization_custom, hw, hh, hf]
  · intro h
    cases hw : pyIntParse tw <;> cases hh : pyIntParse th <;>
      cases hf : parseFpsCustom tfps <;>
      simp_all [prompt_for_normalization_custom]

/-- Witness for C8's amended claim at a concrete well-formed custom input
with a rational frame rate. -/
theorem custom_normalization_parse_behavior_witness :
    pyIntParse "16" = some 16 ∧ pyIntParse "9" = some 9 ∧
    parseFpsCustom "30000/1001" = some ((30000 : ℚ) / 1001) ∧
    prompt_for_normalization_custom "16" "9" "30000/1001" =
      ((16, 9, (30000 : ℚ) / 1001, "30000/1001"), false) :=
  ⟨by decide, by decide, by rfl,
    (custom_normalization_parse_behavior "16" "9" "30000/1001").1 16 9 ((30000 : ℚ) / 1001)
      (by decide) (by decide) (by rfl)⟩

/-- C3 counterexample: with the spec's own mismatched example — two distinct
observed specs — and no normalization target chosen, the final
concatenation still issues the fast container-level stream-copy join
(`-c copy`): the claim that the slow re-encode path is taken is false, and
in fact no re-encode join exists in the code. -/
theorem concat_fast_path_despite_mismatch_cex :
    mismatchedSpecs.length > 1 ∧
    usesStreamCopy (main_concat_command mismatchedSpecs none "/b/P/tmp/file_list.txt"
      "/b/Compilations/P.mp4") ∧
    main_concat_command mismatchedSpecs none "/b/P/tmp/file_list.txt"
        "/b/Compilations/P.mp4" =
      ["ffmpeg", "-f", "concat", "-safe", "0", "-i", "/b/P/tmp/file_list.txt",
        "-c", "copy", "/b/Compilations/P.mp4"] :=
  ⟨by decide,
    ⟨["ffmpeg", "-f", "concat", "-safe", "0", "-i", "/b/P/tmp/file_list.txt"],
      ["/b/Compilations/P.mp4"], rfl⟩,
    rfl⟩

/-- C3 as amended: for every batch — whatever unique specs were observed and
whether or not a normalization target was chosen — the final concatenation
issues the fast container-level stream-copy join; the code has no slow
re-encode join at all. -/
theorem concat_always_stream_copy (unique_specs : List StreamInfo)
    (target_spec : Option TargetSpec) (fl out : String) :
    usesStreamCopy (main_concat_command unique_specs target_spec fl out) ∧
    main_concat_command unique_specs target_spec fl out =
      concatenate_videos_command fl out :=
  ⟨⟨["ffmpeg", "-f", "concat", "-safe", "0", "-i", fl], [out], rfl⟩, rfl⟩

/-- C1 (the claim fails on the code): at the batch-wide timeout a stalled
job is not force-terminated, not marked failed, and its progress entry is
not forced to its total duration.  The `except TimeoutError` handler only
logs a warning: the job stays `Running` with its last-written progress, its
result is simply missing from the collected batch results, and no process
is killed — so the aggregate total cannot reach the batch's total
duration. -/
theorem batch_timeout_leaves_stalled_job_running :
    statusAtBatchTimeout stalledJob = JobStatus.running ∧
    statusAtBatchTimeout stalledJob ≠ JobStatus.failed ∧
    progressAtBatchTimeout stalledJob = 42 ∧
    stalledJob.totalDuration = 600 ∧
    progressAtBatchTimeout stalledJob ≠ stalledJob.totalDuration ∧
    jobsKilledAtBatchTimeout [stalledJob] = [] ∧
    batchResults [stalledJob] = [] :=
  ⟨rfl, by decide, rfl, rfl, by decide, rfl, rfl⟩

end VideoPreprocessor
